import Mathlib

/-!
A shallow embedding of the reporting script `src/csvs/csvs/boxplot.py`
(and its near-duplicate `src/csvs-20250410T203914Z-001/csvs/boxplot.py`).
CSV parsing is abstracted: the loader takes the already-parsed row list of
each of the three input files. Every definition mirrors the corresponding
Python statement; line references are to `src/csvs/csvs/boxplot.py`.
-/

/-- One parsed CSV row before the loader adds the `Tag` and `unique_id`
columns: its `Kind` column and the remaining (column-name, value) cells,
a missing value (NaN) being `none`. -/
structure BaseRow where
  Kind : String
  values : List (String × Option ℚ)
deriving DecidableEq

/-- A row of the combined dataset `all_data`: the parsed row plus the `Tag`
column (line 19) and the `unique_id` column (line 21). -/
structure TaggedRow where
  base : BaseRow
  Tag : String
  unique_id : Nat
deriving DecidableEq

/-- Lines 18-21: read one file, set `df[Tag] = tag` (a constant for the
whole file) and `df[unique_id] = range(len(df))` (0-based sequential). -/
def tagFile (tag : String) (rows : List BaseRow) : List TaggedRow :=
  rows.enum.map (fun p => { base := p.2, Tag := tag, unique_id := p.1 })

/-- Lines 10-22: the concatenation `all_data` of the three tagged files,
in the insertion order of the `files` dict. -/
def loadAll (f1 f2 f3 : List BaseRow) : List TaggedRow :=
  tagFile "r5.11.4" f1 ++ tagFile "r5.12.0" f2 ++ tagFile "r5.12.1" f3

/-- Keep-first deduplication with an accumulator of rows already seen:
a row equal (in every column) to an earlier one is dropped. -/
def dropDupAux {α : Type} [DecidableEq α] : List α → List α → List α
  | [], _ => []
  | x :: xs, seen =>
      if x ∈ seen then dropDupAux xs seen
      else x :: dropDupAux xs (x :: seen)

/-- Line 25: `all_data.drop_duplicates()` — remove rows that are exact
duplicates (all columns equal) of an earlier row, keeping the first. -/
def drop_duplicates {α : Type} [DecidableEq α] (l : List α) : List α :=
  dropDupAux l []

theorem mem_dropDupAux {α : Type} [DecidableEq α] (a : α) :
    ∀ (l seen : List α), a ∈ dropDupAux l seen ↔ a ∈ l ∧ a ∉ seen
  | [], seen => by simp [dropDupAux]
  | x :: xs, seen => by
      by_cases hx : x ∈ seen
      · rw [dropDupAux, if_pos hx, mem_dropDupAux a xs seen]
        constructor
        · rintro ⟨h1, h2⟩; exact ⟨List.mem_cons_of_mem _ h1, h2⟩
        · rintro ⟨h1, h2⟩
          rcases List.mem_cons.mp h1 with h | h
          · exact absurd (h ▸ hx) h2
          · exact ⟨h, h2⟩
      · rw [dropDupAux, if_neg hx]
        simp only [List.mem_cons, mem_dropDupAux a xs (x :: seen)]
        constructor
        · rintro (rfl | ⟨h1, h2⟩)
          · exact ⟨Or.inl rfl, hx⟩
          · refine ⟨Or.inr h1, fun hs => h2 ?_⟩
            tauto
        · rintro ⟨rfl | h1, h2⟩
          · exact Or.inl rfl
          · by_cases hax : a = x
            · exact Or.inl hax
            · exact Or.inr ⟨h1, by tauto⟩

theorem dropDupAux_nodup {α : Type} [DecidableEq α] :
    ∀ (l seen : List α), (dropDupAux l seen).Nodup
  | [], _ => List.nodup_nil
  | x :: xs, seen => by
      by_cases hx : x ∈ seen
      · rw [dropDupAux, if_pos hx]; exact dropDupAux_nodup xs seen
      · rw [dropDupAux, if_neg hx]
        refine List.nodup_cons.mpr ⟨?_, dropDupAux_nodup xs (x :: seen)⟩
        intro hmem
        exact ((mem_dropDupAux x xs (x :: seen)).mp hmem).2 (List.mem_cons_self x seen)

theorem dropDupAux_eq_self {α : Type} [DecidableEq α] :
    ∀ (l seen : List α), l.Nodup → (∀ a ∈ l, a ∉ seen) → dropDupAux l seen = l
  | [], _, _, _ => rfl
  | x :: xs, seen, hnd, hout => by
      have hx : x ∉ seen := hout x (List.mem_cons_self x xs)
      rw [dropDupAux, if_neg hx]
      congr 1
      refine dropDupAux_eq_self xs (x :: seen) (List.nodup_cons.mp hnd).2 ?_
      intro a ha
      rw [List.mem_cons]
      rintro (rfl | hs)
      · exact (List.nodup_cons.mp hnd).1 ha
      · exact hout a (List.mem_cons_of_mem _ ha) hs

theorem drop_duplicates_eq_self {α : Type} [DecidableEq α] (l : List α)
    (h : l.Nodup) : drop_duplicates l = l :=
  dropDupAux_eq_self l [] h (by simp)

theorem tagFile_tag_of_mem (t : String) (f : List BaseRow) (r : TaggedRow)
    (h : r ∈ tagFile t f) : r.Tag = t := by
  simp only [tagFile, List.mem_map] at h
  obtain ⟨p, _, rfl⟩ := h
  rfl

theorem tagFile_length (t : String) (f : List BaseRow) :
    (tagFile t f).length = f.length := by
  simp [tagFile]

theorem tagFile_nodup (t : String) (f : List BaseRow) : (tagFile t f).Nodup := by
  have hmap : (tagFile t f).map (fun r => r.unique_id) = List.range f.length := by
    simp only [tagFile, List.map_map]
    have : ((fun r : TaggedRow => r.unique_id) ∘
        fun p : Nat × BaseRow => ({ base := p.2, Tag := t, unique_id := p.1 } : TaggedRow))
        = Prod.fst := rfl
    rw [this, List.enum_map_fst]
  refine List.Nodup.of_map (fun r : TaggedRow => r.unique_id) ?_
  rw [hmap]
  simp [List.nodup_range]

theorem loadAll_nodup (f1 f2 f3 : List BaseRow) : (loadAll f1 f2 f3).Nodup := by
  have tagNe : ∀ (t1 t2 : String) (g1 g2 : List BaseRow), t1 ≠ t2 →
      List.Disjoint (tagFile t1 g1) (tagFile t2 g2) := by
    intro t1 t2 g1 g2 hne r h1 h2
    exact hne ((tagFile_tag_of_mem t1 g1 r h1).symm.trans (tagFile_tag_of_mem t2 g2 r h2))
  rw [loadAll, List.append_assoc, List.nodup_append]
  refine ⟨tagFile_nodup _ _, ?_, ?_⟩
  · rw [List.nodup_append]
    exact ⟨tagFile_nodup _ _, tagFile_nodup _ _, tagNe _ _ _ _ (by decide)⟩
  · intro r h1 h2
    rcases List.mem_append.mp h2 with h2 | h2
    · exact tagNe _ _ f1 f2 (by decide) h1 h2
    · exact tagNe _ _ f1 f3 (by decide) h1 h2

theorem loadAll_length (f1 f2 f3 : List BaseRow) :
    (loadAll f1 f2 f3).length = f1.length + f2.length + f3.length := by
  simp [loadAll, tagFile]
  omega

/-- C6: the loader gives each row of a file a distinct sequential
`unique_id` and each file a distinct constant `Tag`, so the combined
dataset has no exact duplicates: `drop_duplicates` removes no row, and the
deduplicated dataset's row count is the sum of the per-file row counts. -/
theorem dedup_removes_nothing (f1 f2 f3 : List BaseRow) :
    drop_duplicates (loadAll f1 f2 f3) = loadAll f1 f2 f3 ∧
    (drop_duplicates (loadAll f1 f2 f3)).length =
      f1.length + f2.length + f3.length := by
  have h := drop_duplicates_eq_self (loadAll f1 f2 f3) (loadAll_nodup f1 f2 f3)
  exact ⟨h, by rw [h, loadAll_length]⟩

/-- C7: exact-duplicate removal is idempotent — applying `drop_duplicates`
to its own output yields the same row collection. -/
theorem drop_duplicates_idempotent (l : List TaggedRow) :
    drop_duplicates (drop_duplicates l) = drop_duplicates l :=
  drop_duplicates_eq_self (drop_duplicates l) (dropDupAux_nodup l [])

/-- C8: the combined row count before deduplication is the sum of the three
per-file row counts, and every row of a tagged file carries that file's
`Tag`. -/
theorem concat_count_and_tags (f1 f2 f3 : List BaseRow) :
    (loadAll f1 f2 f3).length = f1.length + f2.length + f3.length ∧
    (∀ r ∈ tagFile "r5.11.4" f1, r.Tag = "r5.11.4") ∧
    (∀ r ∈ tagFile "r5.12.0" f2, r.Tag = "r5.12.0") ∧
    (∀ r ∈ tagFile "r5.12.1" f3, r.Tag = "r5.12.1") :=
  ⟨loadAll_length f1 f2 f3,
   fun r hr => tagFile_tag_of_mem _ f1 r hr,
   fun r hr => tagFile_tag_of_mem _ f2 r hr,
   fun r hr => tagFile_tag_of_mem _ f3 r hr⟩

/-- Line 28: the `Kind` values selected into `class_data`. -/
def classKinds : List String := ["Private Class", "Public Class"]

/-- Line 29: the `Kind` values selected into `method_data`. -/
def methodKinds : List String := ["Private Method", "Public Method", "Protected Method"]

/-- Line 28: `class_data = all_data[all_data[Kind].isin([Private Class, Public Class])]`. -/
def class_data (rows : List TaggedRow) : List TaggedRow :=
  rows.filter (fun r => decide (r.base.Kind ∈ classKinds))

/-- Line 29: `method_data = all_data[all_data[Kind].isin([Private Method, Public Method, Protected Method])]`. -/
def method_data (rows : List TaggedRow) : List TaggedRow :=
  rows.filter (fun r => decide (r.base.Kind ∈ methodKinds))

/-- A combined row whose `Kind` is none of the five selected values, as an
external static-analysis CSV may contain (e.g. a file-level row). -/
def fileKindRow : TaggedRow :=
  { base := { Kind := "File", values := [] }, Tag := "r5.11.4", unique_id := 0 }

/-- C5 counterexample: the two `Kind` filters are not a partition — a
combined row with `Kind = "File"` lands in neither `class_data` nor
`method_data`, so it is left out of both subsets. -/
theorem classifier_not_partition :
    fileKindRow ∈ [fileKindRow] ∧
    class_data [fileKindRow] = [] ∧
    method_data [fileKindRow] = [] := by
  refine ⟨List.mem_singleton.mpr rfl, ?_, ?_⟩ <;> rfl

/-- C5 amended: `class_data` holds exactly the combined rows whose `Kind`
is a class kind, `method_data` exactly those whose `Kind` is a method
kind; no row is in both subsets, and a row whose `Kind` is in neither list
is in neither subset. -/
theorem classifier_split (rows : List TaggedRow) (r : TaggedRow) :
    (r ∈ class_data rows ↔ r ∈ rows ∧ r.base.Kind ∈ classKinds) ∧
    (r ∈ method_data rows ↔ r ∈ rows ∧ r.base.Kind ∈ methodKinds) ∧
    ¬(r ∈ class_data rows ∧ r ∈ method_data rows) := by
  have hc : r ∈ class_data rows ↔ r ∈ rows ∧ r.base.Kind ∈ classKinds := by
    simp [class_data, List.mem_filter]
  have hm : r ∈ method_data rows ↔ r ∈ rows ∧ r.base.Kind ∈ methodKinds := by
    simp [method_data, List.mem_filter]
  refine ⟨hc, hm, ?_⟩
  rintro ⟨h1, h2⟩
  have k1 := (hc.mp h1).2
  have k2 := (hm.mp h2).2
  simp only [classKinds, List.mem_cons, List.not_mem_nil, or_false] at k1
  rcases k1 with k1 | k1 <;> rw [k1] at k2 <;> simp [methodKinds] at k2

/-- Lines 80-82 model, step 1: pandas `Series.is_monotonic_increasing` —
every element is at most the next (non-strict, vacuously true for short
sequences). -/
def isMonotonicIncreasing : List ℚ → Bool
  | x :: y :: rest => decide (x ≤ y) && isMonotonicIncreasing (y :: rest)
  | _ => true

/-- Lines 80-82 model, step 2: pandas `Series.is_monotonic_decreasing`. -/
def isMonotonicDecreasing : List ℚ → Bool
  | x :: y :: rest => decide (y ≤ x) && isMonotonicDecreasing (y :: rest)
  | _ => true

/-- Lines 81-82: the trend classifier over the per-tag median sequence:
`"increasing" if medians.is_monotonic_increasing else "decreasing" if
medians.is_monotonic_decreasing else "stable"`. -/
def trend (medians : List ℚ) : String :=
  if isMonotonicIncreasing medians then "increasing"
  else if isMonotonicDecreasing medians then "decreasing"
  else "stable"

/-- Insert a value into a sorted list, keeping it sorted. -/
def insertSorted (x : ℚ) : List ℚ → List ℚ
  | [] => [x]
  | y :: ys => if x ≤ y then x :: y :: ys else y :: insertSorted x ys

/-- Sort a list of values ascending (insertion sort). -/
def sortList : List ℚ → List ℚ
  | [] => []
  | x :: xs => insertSorted x (sortList xs)

/-- The pandas median of a list of values: sort; the middle element for odd
length, the mean of the two middle elements for even length; undefined for
an empty list. -/
def median (xs : List ℚ) : Option ℚ :=
  let s := sortList xs
  let n := xs.length
  if n = 0 then none
  else if n % 2 = 1 then s.get? (n / 2)
  else do
    let a ← s.get? (n / 2 - 1)
    let b ← s.get? (n / 2)
    pure ((a + b) / 2)

/-- Line 80: `clean_data.groupby(Tag)[metric].median()` — given the
per-tag value groups in tag order, the sequence of group medians. -/
def perTagMedians (groups : List (String × List ℚ)) : List ℚ :=
  groups.filterMap (fun g => median g.2)

/-- Lines 80-83: the trend reported for a metric from its per-tag value
groups. -/
def trendOfGroups (groups : List (String × List ℚ)) : String :=
  trend (perTagMedians groups)

theorem isMonotonicIncreasing_of_allEq :
    ∀ ms : List ℚ, (∀ x ∈ ms, ∀ y ∈ ms, x = y) → isMonotonicIncreasing ms = true
  | [], _ => rfl
  | [_], _ => rfl
  | x :: y :: rest, h => by
      have hxy : x = y := h x (by simp) y (by simp)
      have ih := isMonotonicIncreasing_of_allEq (y :: rest)
        (fun a ha b hb => h a (List.mem_cons_of_mem x ha) b (List.mem_cons_of_mem x hb))
      simp [isMonotonicIncreasing, hxy, ih]

/-- C1 amended: the trend over the per-tag medians is "increasing" exactly
when the median sequence is non-decreasing — in particular when all the
medians are equal — "decreasing" when it is non-increasing but not
non-decreasing, and "stable" only when it is neither; an all-equal median
sequence is reported "increasing", never "stable". -/
theorem trend_classification (groups : List (String × List ℚ)) :
    (isMonotonicIncreasing (perTagMedians groups) = true →
      trendOfGroups groups = "increasing") ∧
    (isMonotonicIncreasing (perTagMedians groups) = false →
      isMonotonicDecreasing (perTagMedians groups) = true →
      trendOfGroups groups = "decreasing") ∧
    (isMonotonicIncreasing (perTagMedians groups) = false →
      isMonotonicDecreasing (perTagMedians groups) = false →
      trendOfGroups groups = "stable") ∧
    ((∀ x ∈ perTagMedians groups, ∀ y ∈ perTagMedians groups, x = y) →
      trendOfGroups groups = "increasing") := by
  refine ⟨?_, ?_, ?_, ?_⟩
  · intro h; simp [trendOfGroups, trend, h]
  · intro h1 h2; simp [trendOfGroups, trend, h1, h2]
  · intro h1 h2; simp [trendOfGroups, trend, h1, h2]
  · intro h
    simp [trendOfGroups, trend, isMonotonicIncreasing_of_allEq _ h]

/-- C1 counterexample: two tags whose groups have the same median 2 give
the all-equal per-tag median sequence [2, 2], yet the classifier reports
"increasing", not "stable". -/
theorem trend_equal_medians_not_stable :
    perTagMedians [("r5.11.4", [(2 : ℚ)]), ("r5.12.0", [2])] = [2, 2] ∧
    trendOfGroups [("r5.11.4", [(2 : ℚ)]), ("r5.12.0", [2])] = "increasing" ∧
    "increasing" ≠ "stable" := by
  refine ⟨?_, ?_, ?_⟩ <;> first | rfl | decide

/-- Lines 96-97: the LCOM assessment of a tag's median:
`"Poor (>80%)" if value > 80 else "Moderate (50-80%)" if value > 50 else
"Good (<50%)"`. -/
def lcom_assessment (value : ℚ) : String :=
  if value > 80 then "Poor (>80%)"
  else if value > 50 then "Moderate (50-80%)"
  else "Good (<50%)"

/-- Lines 103-104: the cyclomatic-complexity assessment of a tag's median:
`"High (>50)" if value > 50 else "Moderate (20-50)" if value > 20 else
"Low (<20)"`. -/
def cc_assessment (value : ℚ) : String :=
  if value > 50 then "High (>50)"
  else if value > 20 then "Moderate (20-50)"
  else "Low (<20)"

theorem lcom_moderate_iff (v : ℚ) :
    lcom_assessment v = "Moderate (50-80%)" ↔ 50 < v ∧ v ≤ 80 := by
  unfold lcom_assessment
  split_ifs with h80 h50
  · constructor
    · intro h; exact absurd h (by decide)
    · rintro ⟨-, h⟩; linarith
  · exact ⟨fun _ => ⟨h50, le_of_not_lt h80⟩, fun _ => rfl⟩
  · constructor
    · intro h; exact absurd h (by decide)
    · rintro ⟨h, -⟩; exact absurd h h50

theorem lcom_poor_iff (v : ℚ) : lcom_assessment v = "Poor (>80%)" ↔ 80 < v := by
  unfold lcom_assessment
  split_ifs with h80 h50
  · exact ⟨fun _ => h80, fun _ => rfl⟩
  · exact ⟨fun h => absurd h (by decide), fun h => absurd h h80⟩
  · exact ⟨fun h => absurd h (by decide), fun h => absurd h h80⟩

/-- C4: the LCOM assessment labels a median of exactly 50 "Good", exactly
80 "Moderate" and 81 "Poor"; the Moderate band is exactly 50 < v ≤ 80 and
the Poor band exactly v > 80 (both boundaries strict). -/
theorem lcom_assessment_boundaries :
    lcom_assessment 50 = "Good (<50%)" ∧
    lcom_assessment 80 = "Moderate (50-80%)" ∧
    lcom_assessment 81 = "Poor (>80%)" ∧
    (∀ v : ℚ, lcom_assessment v = "Moderate (50-80%)" ↔ 50 < v ∧ v ≤ 80) ∧
    (∀ v : ℚ, lcom_assessment v = "Poor (>80%)" ↔ 80 < v) := by
  refine ⟨?_, ?_, ?_, lcom_moderate_iff, lcom_poor_iff⟩
  · unfold lcom_assessment; norm_num
  · unfold lcom_assessment; norm_num
  · unfold lcom_assessment; norm_num

/-- C3: at a median of exactly 20 the cyclomatic-complexity assessment
takes the `value > 20` branch's else, labelling it "Low (<20)" — not
"Moderate (20-50)" as both the spec's threshold table and the label's own
"(20-50)" band text state. -/
theorem cc_assessment_at_twenty :
    cc_assessment 20 = "Low (<20)" ∧ cc_assessment 20 ≠ "Moderate (20-50)" := by
  have h : cc_assessment 20 = "Low (<20)" := by unfold cc_assessment; norm_num
  exact ⟨h, by rw [h]; decide⟩

/-- Lines 112-115: the metrics whose `use_notch` flag is set to false. -/
def discreteNotchMetrics : List String :=
  ["CountClassDerived", "MaxInheritanceTree", "CountClassCoupled"]

/-- Lines 111-115: the `use_notch` flag the chart code computes for each
metric: false for the three discrete metrics, true otherwise. -/
def use_notch (metric : String) : Bool :=
  if metric ∈ discreteNotchMetrics then false else true

/-- The `sns.boxplot` keyword arguments that shape the drawn boxes. -/
structure BoxplotArgs where
  notch : Bool
  showfliers : Bool
deriving DecidableEq

/-- Lines 118-126: the `sns.boxplot(...)` call of the chart step. It
passes `notch=True` unconditionally; the `use_notch` flag computed just
above it (modelled by the discarded let) is never passed. -/
def boxplotArgs (metric : String) : BoxplotArgs :=
  let _ := use_notch metric
  { notch := true, showfliers := true }

/-- C2: the chart renderer does not suppress the notch for the discrete
metrics — the computed `use_notch` flag is false for them, yet the
`sns.boxplot` call renders every metric, discrete or not, with
`notch=True`. -/
theorem notch_not_suppressed :
    use_notch "MaxInheritanceTree" = false ∧
    (boxplotArgs "MaxInheritanceTree").notch = true ∧
    (boxplotArgs "CountClassCoupled").notch = true ∧
    (boxplotArgs "CountClassDerived").notch = true ∧
    (boxplotArgs "SumCyclomatic").notch = true := by
  refine ⟨by decide, rfl, rfl, rfl, rfl⟩

/-- The outcome of the guarded chart step for one metric (lines 109-158):
`ok` when the renderer succeeds, `failed msg` when its exception is caught
and logged by the `except` clause (lines 157-158). -/
inductive ChartResult where
  | ok : ChartResult
  | failed : String → ChartResult
deriving DecidableEq

/-- What the analyzer loop does for one metric: print a skip notice and
continue (lines 67-69), or analyze it (statistics, trend, assessment) and
attempt its chart. -/
inductive MetricEvent where
  | skipped : String → MetricEvent
  | analyzed : String → ChartResult → MetricEvent
deriving DecidableEq

/-- Lines 66-158: the per-metric analyzer loop over the configured metric
list. `cols` is the column schema of `class_data`; `render` abstracts the
body of the chart `try` block, whose failure the `except` clause catches. -/
def analyzeMetrics (cols : List String) (render : String → Except String Unit) :
    List String → List MetricEvent
  | [] => []
  | m :: ms =>
    if m ∈ cols then
      (match render m with
        | Except.ok _ => MetricEvent.analyzed m ChartResult.ok
        | Except.error e => MetricEvent.analyzed m (ChartResult.failed e)) ::
        analyzeMetrics cols render ms
    else
      MetricEvent.skipped m :: analyzeMetrics cols render ms

/-- Lines 52-60: the configured metric list `class_metrics`. -/
def class_metrics : List String :=
  ["SumCyclomatic", "MaxInheritanceTree", "PercentLackOfCohesion",
   "CountClassDerived", "CountClassCoupled", "CountDeclMethod", "CountLineCode"]

theorem analyzeMetrics_append (cols : List String)
    (render : String → Except String Unit) (ms1 ms2 : List String) :
    analyzeMetrics cols render (ms1 ++ ms2) =
      analyzeMetrics cols render ms1 ++ analyzeMetrics cols render ms2 := by
  induction ms1 with
  | nil => rfl
  | cons m ms ih =>
      simp only [List.cons_append, analyzeMetrics, List.append_eq, ih]
      split_ifs <;> rfl

/-- C9: a metric absent from the class-row schema only inserts a skip
notice into the run: the loop continues, and the metrics before and after
it are processed exactly as they otherwise would be, in list order. -/
theorem missing_metric_skipped (cols : List String)
    (render : String → Except String Unit) (ms1 ms2 : List String) (m : String)
    (hm : m ∉ cols) :
    analyzeMetrics cols render (ms1 ++ m :: ms2) =
      analyzeMetrics cols render ms1 ++
        MetricEvent.skipped m :: analyzeMetrics cols render ms2 := by
  rw [analyzeMetrics_append]
  congr 1
  simp only [analyzeMetrics]
  rw [if_neg hm]

/-- C9 witness: skipping the absent metric AvgEssential between two
present metrics. -/
theorem missing_metric_skipped_witness :
    "AvgEssential" ∉ ["SumCyclomatic", "CountLineCode"] ∧
    analyzeMetrics ["SumCyclomatic", "CountLineCode"] (fun _ => Except.ok ())
        (["SumCyclomatic"] ++ "AvgEssential" :: ["CountLineCode"]) =
      analyzeMetrics ["SumCyclomatic", "CountLineCode"] (fun _ => Except.ok ())
          ["SumCyclomatic"] ++
        MetricEvent.skipped "AvgEssential" ::
          analyzeMetrics ["SumCyclomatic", "CountLineCode"] (fun _ => Except.ok ())
            ["CountLineCode"] :=
  ⟨by decide, missing_metric_skipped _ _ _ _ _ (by decide)⟩

/-- C10: a failure of the chart step for one metric is caught — that
metric's event records the logged message — and the loop still produces
the statistics, assessment and chart events of every later metric exactly
as it otherwise would. -/
theorem chart_failure_isolated (cols : List String)
    (render : String → Except String Unit) (ms1 ms2 : List String)
    (m e : String) (hm : m ∈ cols) (hf : render m = Except.error e) :
    analyzeMetrics cols render (ms1 ++ m :: ms2) =
      analyzeMetrics cols render ms1 ++
        MetricEvent.analyzed m (ChartResult.failed e) ::
          analyzeMetrics cols render ms2 := by
  rw [analyzeMetrics_append]
  congr 1
  simp only [analyzeMetrics]
  rw [if_pos hm, hf]

/-- A renderer that fails on the cyclomatic-complexity chart only. -/
def failingRender : String → Except String Unit :=
  fun s => if s = "SumCyclomatic" then Except.error "render failure" else Except.ok ()

/-- C10 witness: the injected chart failure for SumCyclomatic is logged
and the following metric is still processed. -/
theorem chart_failure_isolated_witness :
    "SumCyclomatic" ∈ ["SumCyclomatic", "CountLineCode"] ∧
    failingRender "SumCyclomatic" = Except.error "render failure" ∧
    analyzeMetrics ["SumCyclomatic", "CountLineCode"] failingRender
        ([] ++ "SumCyclomatic" :: ["CountLineCode"]) =
      analyzeMetrics ["SumCyclomatic", "CountLineCode"] failingRender [] ++
        MetricEvent.analyzed "SumCyclomatic" (ChartResult.failed "render failure") ::
          analyzeMetrics ["SumCyclomatic", "CountLineCode"] failingRender
            ["CountLineCode"] :=
  ⟨by decide, rfl, chart_failure_isolated _ _ _ _ _ _ (by decide) rfl⟩
